import Mathlib

/-!
Verification development for the `lp-daemon` repository (Berkeley LPD server).

The central component modelled here is the `RequestTokenizer` transform stream
(`lib/tokenizer.js`): a per-byte state machine turning the raw octet stream of
one connection into protocol tokens (commands, sub-commands, data payloads and
an end-of-request marker).  The JavaScript `_transform` method processes its
chunk one octet at a time in a loop; the behaviour depends only on the octet
sequence, not on chunk boundaries, so it is embedded as a single-octet step
function folded over the input list.  The `PassThrough` payload stream of the
source is modelled by recording, for the currently open stream, the octets
written to it so far, and, for every stream that has been ended, its final
payload together with whether it completed cleanly (a non-clean close models
the `EPIPE` "LP client apparently failed to transmit complete content" error
emitted on the stream before ending it).

The server entry point (`lib/server.js`) is modelled as far as its
construction-time backend validation is concerned.
-/

namespace LpDaemon

/-- Number of octets the tokenizer still expects for the current data block:
the source field `_dataBytes`, which is either a finite count or the
JavaScript value `Infinity` (unbounded transfer). -/
inductive DataLen where
  | fin (n : Nat) : DataLen
  | inf : DataLen
deriving DecidableEq, Repr

/-- The currently open payload stream (source field `_data`, a `PassThrough`):
`declared` is the length it was created for, `payload` lists the octets written
to it so far, `expectConfirm` is the source flag
`_expectConfirmationFromLpClient` set once a bounded transfer has delivered all
its octets. -/
structure OpenData where
  declared : DataLen
  payload : List Nat
  expectConfirm : Bool
deriving DecidableEq, Repr

/-- Record of a payload stream that has been ended: its declared length, the
octets it delivered, and whether it was closed cleanly (`complete = false`
models the `EPIPE` transmission-incomplete error emitted on the stream right
before `end()`). -/
structure ClosedData where
  declared : DataLen
  payload : List Nat
  complete : Bool
deriving DecidableEq, Repr

/-- Tokens pushed by the tokenizer (the objects pushed via `this.push`): a
command token (with `sub = true` when emitted in sub-command mode), a data
token announcing a payload stream with its declared length, and the
end-of-request token emitted by `_flush`. -/
inductive Token where
  | command (sub : Bool) (opcode : Nat) (operands : List (List Nat))
  | data (declared : DataLen)
  | eof
deriving DecidableEq, Repr

/-- The framing errors the tokenizer reports through its `_transform` and
`_flush` callbacks. -/
inductive TokError where
  | extraDataPastCommand
  | missingSizeOperand
  | invalidSizeOperand
  | prematureEndOfRequest
  | prematureEndOfData
deriving DecidableEq, Repr

/-- The error message of each framing error, exactly as in the source (the
request-id suffix interpolated into the two premature-end messages is left
out: the model describes a single connection). -/
def TokError.message : TokError → String
  | .extraDataPastCommand => "invalid extra data in input stream past command"
  | .missingSizeOperand => "missing operand providing size of data file"
  | .invalidSizeOperand => "invalid operand providing size of data file"
  | .prematureEndOfRequest => "premature end of request"
  | .prematureEndOfData => "premature end of data transmission"

/-- Mutable state of a `RequestTokenizer` instance: the fields `_command`,
`_operands`, `_partial` (here `partialOctets`, since `partial` is reserved in
Lean), `_dataBytes`, `_data`, and the closure-captured flags `finished`
(property `metEndOfCommand`) and `processSubCommands` (property
`handleSubCommands`).  In addition, `tokens` accumulates the tokens pushed so
far and `closedStreams` the payload streams ended so far, so that the
observable output of a run is part of the state. -/
structure TokState where
  command : Option Nat
  operands : List (List Nat)
  partialOctets : List Nat
  dataBytes : DataLen
  data : Option OpenData
  finished : Bool
  processSubCommands : Bool
  tokens : List Token
  closedStreams : List ClosedData
deriving DecidableEq, Repr

/-- State of a freshly constructed tokenizer. -/
def initState : TokState :=
  { command := none, operands := [], partialOctets := [], dataBytes := .fin 0,
    data := none, finished := false, processSubCommands := false,
    tokens := [], closedStreams := [] }

/-- The `handleSubCommands` property setter: it sets the flag only while
`metEndOfCommand` (`finished`) has not been set. -/
def setHandleSubCommands (s : TokState) : TokState :=
  if s.finished then s else { s with processSubCommands := true }

/-- Decoding one octet the way `Buffer.prototype.toString( "ascii" )` does in
Node.js: the highest bit of each byte is unset before interpretation. -/
def asciiByte (b : Nat) : Nat := b % 128

/-- Whether a decoded character is an ASCII decimal digit (the character class
of the size-operand test `/^\d+$/`). -/
def isDigitByte (c : Nat) : Bool := decide (0x30 ≤ c) && decide (c ≤ 0x39)

/-- The test `/^\d+$/.test( count )` applied to a decoded operand: at least one
character, all of them decimal digits. -/
def isDecimalString (cs : List Nat) : Bool := !cs.isEmpty && cs.all isDigitByte

/-- Value of a decimal digit string, the model of `parseInt( count )` on a
string matching `/^\d+$/` (exact for every length the IEEE double of the
source represents exactly; all lengths relevant to the protocol, including the
sentinel, are far below 2^53). -/
def decimalValue (cs : List Nat) : Nat := cs.foldl (fun acc c => acc * 10 + (c - 0x30)) 0

/-- The inherited protocol-compatibility sentinel treated as "unbounded". -/
def sentinelLength : Nat := 125899906843000

/-- Interpretation of a parsed size operand, the expression
`count > 0 && count !== 125899906843000 ? count : Infinity` of the source: a
positive, non-sentinel count is a bounded length; the literal `0` and the
sentinel are unbounded. -/
def declaredLength (count : Nat) : DataLen :=
  if 0 < count ∧ count ≠ sentinelLength then DataLen.fin count else DataLen.inf

/-- Closing the operand being collected, as done when a separator octet is met
(and, on the local `operands` array, when a line feed is met): a non-empty
`_partial` is appended to `_operands` and cleared; an empty one is ignored. -/
def closeOperand (s : TokState) : TokState :=
  if s.partialOctets.isEmpty then s
  else { s with operands := s.operands ++ [s.partialOctets], partialOctets := [] }

/-- Reading the completion-confirmation octet for a payload stream: the stream
is ended and recorded (cleanly for octet `0`, as incomplete otherwise — the
source emits the `EPIPE` error on the stream first), `_data` is cleared, and
when the tokenizer is not in sub-command mode `metEndOfCommand` is set. -/
def confirmData (s : TokState) (d : OpenData) (b : Nat) : TokState :=
  let s1 : TokState :=
    { s with data := none,
             closedStreams := s.closedStreams ++ [⟨d.declared, d.payload, b == 0⟩] }
  if s1.processSubCommands then s1 else { s1 with finished := true }

/-- Handling a line-feed octet ending the current command: the token carrying
the collected operands is pushed, operand state is reset, and the command is
dispatched — in sub-command mode opcodes `0x02`/`0x03` validate their size
operand and open a payload stream (the literal size `0` and the sentinel are
mapped to an unbounded stream); at top level opcode `0x02` enters sub-command
mode while every other opcode sets `metEndOfCommand`. -/
def finishCommand (s : TokState) (cmd : Nat) : Except (TokError × TokState) TokState :=
  let ops := (closeOperand s).operands
  let sub := s.processSubCommands
  let s1 : TokState :=
    { s with command := none, operands := [], partialOctets := [],
             tokens := s.tokens ++ [.command sub cmd ops] }
  if sub then
    if cmd = 0x02 ∨ cmd = 0x03 then
      match ops with
      | [] => .error (.missingSizeOperand, s1)
      | op0 :: _ =>
        let sizeText := op0.map asciiByte
        if isDecimalString sizeText then
          let count := decimalValue sizeText
          let declared := declaredLength count
          .ok { s1 with data := some ⟨declared, [], false⟩,
                        dataBytes := declared,
                        tokens := s1.tokens ++ [.data declared] }
        else
          .error (.invalidSizeOperand, s1)
    else
      .ok s1
  else if cmd = 0x02 then
    .ok (setHandleSubCommands s1)
  else
    .ok { s1 with finished := true }

/-- One iteration of the `while ( read < numBytes )` loop of `_transform`,
consuming exactly one input octet `b` (the source writes payload slices of up
to `_dataBytes` octets at once, which is octet-for-octet equivalent).  Errors
passed to the `_transform` callback carry the state reached when they are
raised, so that the tokens emitted up to the error stay observable. -/
def step (s : TokState) (b : Nat) : Except (TokError × TokState) TokState :=
  if s.finished then
    .error (.extraDataPastCommand, s)
  else
    match s.data with
    | some d =>
      if d.expectConfirm then
        .ok (confirmData s d b)
      else
        match s.dataBytes with
        | .fin 0 => .ok (confirmData s d b)
        | .fin (n + 1) =>
          let d2 : OpenData := { d with payload := d.payload ++ [b] }
          if n = 0 then
            .ok { s with dataBytes := .fin 0, data := some { d2 with expectConfirm := true } }
          else
            .ok { s with dataBytes := .fin n, data := some d2 }
        | .inf =>
          .ok { s with data := some { d with payload := d.payload ++ [b] } }
    | none =>
      match s.command with
      | none => .ok { s with command := some b }
      | some cmd =>
        if b = 0x09 ∨ b = 0x0b ∨ b = 0x0c ∨ b = 0x20 then
          .ok (closeOperand s)
        else if b = 0x0a then
          finishCommand s cmd
        else
          .ok { s with partialOctets := s.partialOctets ++ [b] }

/-- Processing a whole octet sequence, aborting at the first framing error
(JS `callback( error )` returns from `_transform` immediately). -/
def processBytes (s : TokState) : List Nat → Except (TokError × TokState) TokState
  | [] => .ok s
  | b :: rest =>
    match step s b with
    | .ok s2 => processBytes s2 rest
    | .error e => .error e

/-- The `_expectConfirmationFromLpClient` flag of the currently open payload
stream, `false` when no stream is open. -/
def TokState.expectConfirmationFromLpClient (s : TokState) : Bool :=
  match s.data with
  | some d => d.expectConfirm
  | none => false

/-- The `_flush` handler, run when the input stream ends: a partial operand, a
pending command or collected operands mean a premature end of the request; an
open bounded payload stream still expecting octets means a premature end of
the data transmission; otherwise the end-of-request token is pushed. -/
def flush (s : TokState) : Except (TokError × TokState) TokState :=
  if s.partialOctets.length > 0 ∨ s.command ≠ none ∨ s.operands.length > 0 then
    .error (.prematureEndOfRequest, s)
  else if s.data ≠ none ∧ s.dataBytes ≠ .inf ∧ s.expectConfirmationFromLpClient = false then
    .error (.prematureEndOfData, s)
  else
    .ok { s with tokens := s.tokens ++ [.eof] }

/-- The `end` event handler: once the stream has ended, any still-open payload
stream is ended (cleanly — this is how an unbounded transfer terminates). -/
def endStream (s : TokState) : TokState :=
  match s.data with
  | some d =>
    { s with data := none,
             closedStreams := s.closedStreams ++ [⟨d.declared, d.payload, true⟩] }
  | none => s

/-- Everything that happens when the input of the connection ends: `_flush`
followed, on success, by the `end` handler closing an open payload stream. -/
def finishInput (s : TokState) : Except (TokError × TokState) TokState :=
  match flush s with
  | .ok s2 => .ok (endStream s2)
  | .error e => .error e

/-- A complete tokenizer run over the whole input of one connection. -/
def runTokenizer (input : List Nat) : Except (TokError × TokState) TokState :=
  match processBytes initState input with
  | .ok s => finishInput s
  | .error e => .error e

/-- State reached by a (possibly failed) processing run. -/
def resultState : Except (TokError × TokState) TokState → TokState
  | .ok s => s
  | .error (_, s) => s

/-- A concrete backend implementation shipped with the repository (the
console-dumping `NullBackend` or the IPP-forwarding `IppBackend`), both
subclasses of `AbstractBackend`. -/
inductive BackendKind where
  | nullBackend : BackendKind
  | ippBackend (serviceUrl : String) : BackendKind
deriving DecidableEq

/-- The JavaScript value found in `options.backend` when the server module is
invoked: missing (`undefined`), some value that is not an `AbstractBackend`
instance, or an actual backend instance. -/
inductive BackendOption where
  | absent : BackendOption
  | nonBackend : BackendOption
  | backend (b : BackendKind) : BackendOption
deriving DecidableEq

/-- The `instanceof AbstractBackend` test of `lib/server.js`. -/
def BackendOption.isBackendInstance : BackendOption → Bool
  | .backend _ => true
  | _ => false

/-- The options object handed to the exported server factory. -/
structure ServerOptions where
  backend : BackendOption
  requireValidRemotePort : Bool
deriving DecidableEq

/-- The `TypeError` thrown by the server factory at construction time. -/
structure ConfigurationError where
  message : String
deriving DecidableEq

/-- A bound, listening TCP server (the resolved value of the promise returned
by the factory; `server.listen( 515, ... )` binds the LPD well-known port).
A value of this type exists only once the construction-time validation has
passed and the server is accepting connections. -/
structure NetServer where
  port : Nat
deriving DecidableEq

/-- The exported server factory of `lib/server.js`: the backend option is
validated first — `if ( !( options.backend instanceof AbstractBackend ) )`
a `TypeError` is thrown before `Net.createServer`/`listen` is ever reached —
and only afterwards is the listening server created. -/
def createServer (options : ServerOptions) : Except ConfigurationError NetServer :=
  if options.backend.isBackendInstance then
    .ok { port := 515 }
  else
    .error { message := "missing backend for processing incoming requests" }

/-! ## Helper lemmas about the step function -/

/-- Once `metEndOfCommand` is set, any further octet is rejected with the
extra-data framing error and the state is left untouched. -/
theorem step_of_finished (s : TokState) (b : Nat) (h : s.finished = true) :
    step s b = .error (.extraDataPastCommand, s) := by
  simp [step, h]

/-- Once `metEndOfCommand` is set, a processing run changes nothing. -/
theorem processBytes_of_finished (s : TokState) (bs : List Nat) (h : s.finished = true) :
    resultState (processBytes s bs) = s := by
  cases bs with
  | nil => rfl
  | cons b rest => simp [processBytes, step_of_finished s b h, resultState]

/-- Dispatching a completed command never clears the `handleSubCommands`
flag. -/
theorem finishCommand_preserves_sub (s : TokState) (cmd : Nat) (h : s.processSubCommands = true) :
    (resultState (finishCommand s cmd)).processSubCommands = true := by
  unfold finishCommand
  cases hops : (closeOperand s).operands with
  | nil =>
    by_cases h23 : cmd = 0x02 ∨ cmd = 0x03 <;> simp [h23, hops, resultState, h]
  | cons op0 rest =>
    by_cases h23 : cmd = 0x02 ∨ cmd = 0x03
    · by_cases hdec : isDecimalString (op0.map asciiByte) = true <;>
        simp [h23, hops, hdec, resultState, h]
    · simp [h23, hops, resultState, h]

/-- A single step never clears the `handleSubCommands` flag. -/
theorem step_preserves_sub (s : TokState) (b : Nat) (h : s.processSubCommands = true) :
    (resultState (step s b)).processSubCommands = true := by
  unfold step
  by_cases hf : s.finished = true
  · simp [hf, resultState, h]
  · have hf2 : s.finished = false := by simpa using hf
    cases hd : s.data with
    | some d =>
      by_cases hc : d.expectConfirm = true
      · simp [hf2, hd, hc, confirmData, resultState, h]
      · have hc2 : d.expectConfirm = false := by simpa using hc
        cases hdb : s.dataBytes with
        | fin n =>
          cases n with
          | zero => simp [hf2, hd, hc2, hdb, confirmData, resultState, h]
          | succ m => by_cases hm : m = 0 <;> simp [hf2, hd, hc2, hdb, hm, resultState, h]
        | inf => simp [hf2, hd, hc2, hdb, resultState, h]
    | none =>
      cases hcm : s.command with
      | none => simp [hf2, hd, hcm, resultState, h]
      | some cmd =>
        by_cases hsep : b = 0x09 ∨ b = 0x0b ∨ b = 0x0c ∨ b = 0x20
        · unfold closeOperand
          by_cases hp : s.partialOctets.isEmpty <;> simp [hf2, hd, hcm, hsep, hp, resultState, h]
        · by_cases hlf : b = 0x0a
          · simpa [hf2, hd, hcm, hsep, hlf] using finishCommand_preserves_sub s cmd h
          · simp [hf2, hd, hcm, hsep, hlf, resultState, h]

/-- A single step never clears the `metEndOfCommand` flag. -/
theorem step_preserves_finished (s : TokState) (b : Nat) (h : s.finished = true) :
    (resultState (step s b)).finished = true := by
  simp [step_of_finished s b h, resultState, h]

/-- `handleSubCommands` stays set across a whole processing run. -/
theorem processBytes_preserves_sub (bs : List Nat) :
    ∀ s : TokState, s.processSubCommands = true →
      (resultState (processBytes s bs)).processSubCommands = true := by
  induction bs with
  | nil => intro s h; simpa [processBytes, resultState] using h
  | cons b rest ih =>
    intro s h
    have hs := step_preserves_sub s b h
    unfold processBytes
    cases hstep : step s b with
    | ok s2 => exact ih s2 (by simpa [resultState, hstep] using hs)
    | error e => simpa [resultState, hstep] using hs

/-- `metEndOfCommand` stays set across a whole processing run. -/
theorem processBytes_preserves_finished (bs : List Nat) :
    ∀ s : TokState, s.finished = true →
      (resultState (processBytes s bs)).finished = true := by
  intro s h
  simp [processBytes_of_finished s bs h, h]

/-- Unfolding a processing run over one successfully consumed octet. -/
theorem processBytes_cons_ok (s s2 : TokState) (b : Nat) (rest : List Nat)
    (h : step s b = .ok s2) : processBytes s (b :: rest) = processBytes s2 rest := by
  rw [processBytes, h]

/-- Forwarding a bounded payload: with exactly `bs.length` octets still
expected, the octets `bs` are written to the open stream one by one; when the
count reaches zero the stream is flagged as expecting the completion
confirmation, and processing continues with the remaining input. -/
theorem processBytes_forward_bounded :
    ∀ (bs : List Nat) (s : TokState) (d : OpenData) (rest : List Nat),
      s.finished = false → s.data = some d → d.expectConfirm = false →
      s.dataBytes = DataLen.fin bs.length → bs ≠ [] →
      processBytes s (bs ++ rest) =
        processBytes
          { s with dataBytes := DataLen.fin 0,
                   data := some { d with payload := d.payload ++ bs, expectConfirm := true } }
          rest := by
  intro bs
  induction bs with
  | nil => intro s d rest _ _ _ _ hne; exact absurd rfl hne
  | cons b bs ih =>
    intro s d rest hfin hdata hconf hlen _
    cases bs with
    | nil =>
      simp [processBytes, step, hfin, hdata, hconf, hlen]
    | cons b2 bs2 =>
      have hstep : step s b = .ok
          { s with dataBytes := DataLen.fin (b2 :: bs2).length,
                   data := some { d with payload := d.payload ++ [b] } } := by
        simp [step, hfin, hdata, hconf, hlen]
      have hih := ih
        { s with dataBytes := DataLen.fin (b2 :: bs2).length,
                 data := some { d with payload := d.payload ++ [b] } }
        { d with payload := d.payload ++ [b] } rest hfin rfl hconf rfl (by simp)
      rw [List.cons_append, processBytes, hstep]
      simpa using hih

/-- Forwarding an unbounded payload: with `_dataBytes = Infinity` every input
octet is written to the open stream, the remaining count is never decremented,
and the stream is never flagged for confirmation — the whole input is
consumed as payload. -/
theorem processBytes_forward_unbounded :
    ∀ (bs : List Nat) (s : TokState) (d : OpenData),
      s.finished = false → s.data = some d → d.expectConfirm = false →
      s.dataBytes = DataLen.inf →
      processBytes s bs = .ok { s with data := some { d with payload := d.payload ++ bs } } := by
  intro bs
  induction bs with
  | nil =>
    intro s d hfin hdata hconf hdb
    obtain ⟨c0, o0, p0, db0, da0, f0, sc0, tk0, cs0⟩ := s
    obtain ⟨dd, dp, dc⟩ := d
    simp_all [processBytes]
  | cons b bs ih =>
    intro s d hfin hdata hconf hdb
    have hstep : step s b = .ok { s with data := some { d with payload := d.payload ++ [b] } } := by
      simp [step, hfin, hdata, hconf, hdb]
    have hih := ih { s with data := some { d with payload := d.payload ++ [b] } }
      { d with payload := d.payload ++ [b] } hfin rfl hconf hdb
    rw [processBytes, hstep]
    simpa using hih

/-! ## The claims -/

instance : DecidableEq (Except (TokError × TokState) TokState) := fun a b =>
  match a, b with
  | .ok x, .ok y => if h : x = y then .isTrue (by rw [h]) else .isFalse (by simp [h])
  | .error x, .error y => if h : x = y then .isTrue (by rw [h]) else .isFalse (by simp [h])
  | .ok _, .error _ => .isFalse (by simp)
  | .error _, .ok _ => .isFalse (by simp)

/-- **C10.** Whenever the tokenizer is reading commands (no open data stream,
session not finished) and no opcode is pending, the next input octet is always
consumed as the opcode, whatever its value: the state changes only by
recording `b` as the current command, so a separator octet (tab, vertical tab,
form feed, space) or a line-feed octet in opcode position becomes the opcode
rather than acting as a separator or terminator. -/
theorem C10_any_octet_is_opcode (s : TokState) (b : Nat)
    (hfin : s.finished = false) (hdata : s.data = none) (hcmd : s.command = none) :
    step s b = .ok { s with command := some b } := by
  simp [step, hfin, hdata, hcmd]

/-- Witness for C10 at the line-feed octet in opcode position. -/
theorem C10_witness :
    step initState 0x0a = .ok { initState with command := some 0x0a } :=
  C10_any_octet_is_opcode initState 0x0a rfl rfl rfl

/-- **C8.** Constructing the server with an options object whose `backend` is
missing or not an `AbstractBackend` instance fails with the construction
`TypeError`; since the error is returned instead of a `NetServer`, no
listening socket is ever created. -/
theorem C8_backend_required (options : ServerOptions)
    (h : options.backend.isBackendInstance = false) :
    createServer options =
      .error { message := "missing backend for processing incoming requests" } := by
  simp [createServer, h]

/-- Witness for C8: an options object without any backend. -/
theorem C8_witness :
    createServer { backend := .absent, requireValidRemotePort := false } =
      .error { message := "missing backend for processing incoming requests" } :=
  C8_backend_required { backend := .absent, requireValidRemotePort := false } rfl

/-- **C4.** When a bounded payload has been fully delivered (the open stream
expects the completion confirmation), the next octet `b` is consumed as the
confirmation: the step succeeds (no framing error is raised), the stream is
ended and recorded as complete exactly when `b = 0` (a non-zero octet closes
it with the transmission-incomplete failure), `_data` is cleared and
`metEndOfCommand` stays unset, so the tokenizer resumes reading sub-command
opcodes. -/
theorem C4_completion_confirmation (s : TokState) (d : OpenData) (b : Nat)
    (hfin : s.finished = false) (hdata : s.data = some d)
    (hconf : d.expectConfirm = true) (hsub : s.processSubCommands = true) :
    step s b = .ok
      { s with data := none,
               closedStreams := s.closedStreams ++ [⟨d.declared, d.payload, b == 0⟩] } := by
  simp [step, hfin, hdata, hconf, confirmData, hsub]

/-- Witness for C4 at a non-zero confirmation octet. -/
theorem C4_witness :
    step { command := none, operands := [], partialOctets := [], dataBytes := DataLen.fin 0,
           data := some ⟨DataLen.fin 1, [0xCC], true⟩, finished := false,
           processSubCommands := true, tokens := [], closedStreams := [] } 7 =
    .ok { command := none, operands := [], partialOctets := [], dataBytes := DataLen.fin 0,
          data := none, finished := false, processSubCommands := true, tokens := [],
          closedStreams := [⟨DataLen.fin 1, [0xCC], false⟩] } := by
  have h := C4_completion_confirmation
    ⟨none, [], [], DataLen.fin 0, some ⟨DataLen.fin 1, [0xCC], true⟩, false, true, [], []⟩
    ⟨DataLen.fin 1, [0xCC], true⟩ 7 rfl rfl rfl rfl
  simpa using h

/-- **C9.** A sub-command `0x02`/`0x03` arriving with no operands at all is
rejected with the missing-size-operand framing error — distinct, as an error
and as a message, from the invalid-size-operand error — and the state carried
by the error shows that the sub-command token was pushed but no data token
followed it. -/
theorem C9_missing_size_operand (s : TokState) (cmd : Nat)
    (hfin : s.finished = false) (hdata : s.data = none) (hsub : s.processSubCommands = true)
    (hcmd : s.command = some cmd) (hc23 : cmd = 0x02 ∨ cmd = 0x03)
    (hops : s.operands = []) (hpart : s.partialOctets = []) :
    step s 0x0a = .error (.missingSizeOperand,
      { s with command := none, operands := [], partialOctets := [],
               tokens := s.tokens ++ [Token.command true cmd []] }) ∧
    TokError.message .missingSizeOperand ≠ TokError.message .invalidSizeOperand := by
  refine ⟨?_, by decide⟩
  rcases hc23 with rfl | rfl <;>
    simp [step, hfin, hdata, hcmd, finishCommand, closeOperand, hsub, hops, hpart]

/-- Witness for C9: sub-command `0x03` terminated with no operand. -/
theorem C9_witness :
    step { command := some 0x03, operands := [], partialOctets := [], dataBytes := DataLen.fin 0,
           data := none, finished := false, processSubCommands := true, tokens := [],
           closedStreams := [] } 0x0a =
      .error (.missingSizeOperand,
        { command := none, operands := [], partialOctets := [], dataBytes := DataLen.fin 0,
          data := none, finished := false, processSubCommands := true,
          tokens := [Token.command true 0x03 []], closedStreams := [] }) ∧
    TokError.message .missingSizeOperand ≠ TokError.message .invalidSizeOperand := by
  have h := C9_missing_size_operand
    ⟨some 0x03, [], [], DataLen.fin 0, none, false, true, [], []⟩ 0x03
    rfl rfl rfl rfl (Or.inr rfl) rfl rfl
  exact ⟨by simpa using h.1, h.2⟩

/-- **C5.** Completing any non-`0x02` top-level command (its line feed
processed) sets the no-further-input latch; from the resulting state every
further byte fails with the extra-data framing error, the session state is
left exactly as it was (so no token is emitted for such bytes). -/
theorem C5_extra_data_after_single_command (s t : TokState) (cmd b : Nat) (rest : List Nat)
    (hfin : s.finished = false) (hdata : s.data = none) (hsub : s.processSubCommands = false)
    (hcmd : s.command = some cmd) (hne : cmd ≠ 0x02)
    (hok : step s 0x0a = .ok t) :
    t.finished = true ∧
    processBytes t (b :: rest) = .error (.extraDataPastCommand, t) ∧
    (resultState (processBytes t (b :: rest))).tokens = t.tokens := by
  have hstep : step s 0x0a = .ok
      { s with command := none, operands := [], partialOctets := [],
               tokens := s.tokens ++ [Token.command false cmd ((closeOperand s).operands)],
               finished := true } := by
    simp [step, hfin, hdata, hcmd, finishCommand, hsub, hne]
  rw [hstep] at hok
  obtain rfl := Except.ok.inj hok
  have h2 := step_of_finished
    { s with command := none, operands := [], partialOctets := [],
             tokens := s.tokens ++ [Token.command false cmd ((closeOperand s).operands)],
             finished := true } b rfl
  exact ⟨rfl, by simp [processBytes, h2], by simp [processBytes, h2, resultState]⟩

/-- Witness for C5: top-level command `0x01` with queue operand, then one
extra byte. -/
theorem C5_witness :
    ({ command := none, operands := [], partialOctets := [], dataBytes := DataLen.fin 0,
       data := none, finished := true, processSubCommands := false,
       tokens := [Token.command false 0x01 [[0x71]]], closedStreams := [] } : TokState).finished
      = true ∧
    processBytes
      { command := none, operands := [], partialOctets := [], dataBytes := DataLen.fin 0,
        data := none, finished := true, processSubCommands := false,
        tokens := [Token.command false 0x01 [[0x71]]], closedStreams := [] } [0x41] =
      .error (.extraDataPastCommand,
        { command := none, operands := [], partialOctets := [], dataBytes := DataLen.fin 0,
          data := none, finished := true, processSubCommands := false,
          tokens := [Token.command false 0x01 [[0x71]]], closedStreams := [] }) ∧
    (resultState (processBytes
      { command := none, operands := [], partialOctets := [], dataBytes := DataLen.fin 0,
        data := none, finished := true, processSubCommands := false,
        tokens := [Token.command false 0x01 [[0x71]]], closedStreams := [] } [0x41])).tokens =
      ({ command := none, operands := [], partialOctets := [], dataBytes := DataLen.fin 0,
         data := none, finished := true, processSubCommands := false,
         tokens := [Token.command false 0x01 [[0x71]]], closedStreams := [] } : TokState).tokens := by
  have h := C5_extra_data_after_single_command
    ⟨some 0x01, [], [0x71], DataLen.fin 0, none, false, false, [], []⟩
    ⟨none, [], [], DataLen.fin 0, none, true, false, [Token.command false 0x01 [[0x71]]], []⟩
    0x01 0x41 [] rfl rfl rfl rfl (by decide) rfl
  exact ⟨h.1, by simpa using h.2.1, by simpa using h.2.2⟩

/-- **C3.** The two session flags are one-way latches across any processed
input: sub-command mode, once set, stays set; the no-further-input latch
(`metEndOfCommand`), once set, stays set; and once the latter is set the
state — in particular the sub-command flag — no longer changes at all, so
sub-command mode cannot be entered afterwards. -/
theorem C3_latches_one_way (s : TokState) (bs : List Nat) :
    (s.processSubCommands = true → (resultState (processBytes s bs)).processSubCommands = true) ∧
    (s.finished = true → (resultState (processBytes s bs)).finished = true) ∧
    (s.finished = true →
      (resultState (processBytes s bs)).processSubCommands = s.processSubCommands) :=
  ⟨processBytes_preserves_sub bs s, processBytes_preserves_finished bs s,
   fun h => by rw [processBytes_of_finished s bs h]⟩

/-- Witness for C3: a state with both latches set, fed two further octets. -/
theorem C3_witness :
    (resultState (processBytes
      ⟨none, [], [], DataLen.fin 0, none, true, true, [], []⟩ [0x41, 0x42])).processSubCommands
        = true ∧
    (resultState (processBytes
      ⟨none, [], [], DataLen.fin 0, none, true, true, [], []⟩ [0x41, 0x42])).finished = true ∧
    (resultState (processBytes
      ⟨none, [], [], DataLen.fin 0, none, true, true, [], []⟩ [0x41, 0x42])).processSubCommands
        = (⟨none, [], [], DataLen.fin 0, none, true, true, [], []⟩ : TokState).processSubCommands := by
  have h := C3_latches_one_way ⟨none, [], [], DataLen.fin 0, none, true, true, [], []⟩ [0x41, 0x42]
  exact ⟨h.1 rfl, h.2.1 rfl, h.2.2 rfl⟩

/-- **C6.** On end of input, `_flush` pushes the End token exactly when there
is no partial operand, no in-progress command, no collected operands and no
open bounded data transfer still expecting payload octets; when a partial
operand, pending command or collected operand remains it fails with the
premature-end-of-request framing error, and when an open bounded transfer is
still expecting payload it fails with the premature-end-of-data-transmission
framing error — never with a silent End token. -/
theorem C6_end_token_iff (s : TokState) :
    (flush s = .ok { s with tokens := s.tokens ++ [Token.eof] } ↔
      (s.partialOctets = [] ∧ s.command = none ∧ s.operands = [] ∧
        ¬(s.data ≠ none ∧ s.dataBytes ≠ DataLen.inf ∧
          s.expectConfirmationFromLpClient = false))) ∧
    (s.partialOctets ≠ [] ∨ s.command ≠ none ∨ s.operands ≠ [] →
      flush s = .error (.prematureEndOfRequest, s)) ∧
    (s.partialOctets = [] ∧ s.command = none ∧ s.operands = [] ∧
      s.data ≠ none ∧ s.dataBytes ≠ DataLen.inf ∧ s.expectConfirmationFromLpClient = false →
      flush s = .error (.prematureEndOfData, s)) := by
  unfold flush
  by_cases h1 : s.partialOctets.length > 0 ∨ s.command ≠ none ∨ s.operands.length > 0
  · have h1e : ¬(s.partialOctets = [] ∧ s.command = none ∧ s.operands = []) := by
      rintro ⟨hp, hc, ho⟩
      rcases h1 with h | h | h <;> simp_all
    rw [if_pos h1]
    refine ⟨⟨fun hok => absurd hok (by simp), fun ⟨hp, hc, ho, _⟩ => absurd ⟨hp, hc, ho⟩ h1e⟩,
      fun _ => rfl, fun ⟨hp, hc, ho, _⟩ => absurd ⟨hp, hc, ho⟩ h1e⟩
  · have h1p := h1
    push_neg at h1p
    have h1e : s.partialOctets = [] ∧ s.command = none ∧ s.operands = [] := by
      refine ⟨List.eq_nil_of_length_eq_zero ?_, h1p.2.1, List.eq_nil_of_length_eq_zero ?_⟩
      · have h := h1p.1; omega
      · have h := h1p.2.2; omega
    rw [if_neg h1]
    by_cases h2 : s.data ≠ none ∧ s.dataBytes ≠ DataLen.inf ∧
        s.expectConfirmationFromLpClient = false
    · rw [if_pos h2]
      refine ⟨⟨fun hok => absurd hok (by simp), fun ⟨_, _, _, hnd⟩ => absurd h2 hnd⟩,
        ?_, fun _ => rfl⟩
      rintro (h | h | h)
      · exact absurd h1e.1 h
      · exact absurd h1e.2.1 h
      · exact absurd h1e.2.2 h
    · rw [if_neg h2]
      refine ⟨⟨fun _ => ⟨h1e.1, h1e.2.1, h1e.2.2, h2⟩, fun _ => rfl⟩, ?_,
        fun ⟨_, _, _, hd, hdb, hcf⟩ => absurd ⟨hd, hdb, hcf⟩ h2⟩
      rintro (h | h | h)
      · exact absurd h1e.1 h
      · exact absurd h1e.2.1 h
      · exact absurd h1e.2.2 h

/-- Witness for C6: input ending in the middle of an operand yields the
premature-end-of-request framing error instead of an End token. -/
theorem C6_witness :
    flush ⟨none, [], [0x71], DataLen.fin 0, none, false, false, [], []⟩ =
      .error (.prematureEndOfRequest,
        ⟨none, [], [0x71], DataLen.fin 0, none, false, false, [], []⟩) :=
  (C6_end_token_iff ⟨none, [], [0x71], DataLen.fin 0, none, false, false, [], []⟩).2.1
    (Or.inl (by decide))

/-- **C7.** When a sub-command `0x02`/`0x03` with at least one operand is
terminated by its line feed, the first operand (decoded the way the source
decodes it, as 7-bit "ascii") is checked against the decimal-digit pattern:
on failure the tokenizer raises the invalid-size-operand framing error and
the error state shows no Data token was pushed; on success exactly one Data
token is pushed immediately after the Command token, carrying the parsed
declared length (positive non-sentinel counts bounded, `0` and the sentinel
unbounded), and a fresh open payload stream with that length is installed. -/
theorem C7_size_operand_validation (s : TokState) (cmd : Nat) (op0 : List Nat)
    (rest : List (List Nat))
    (hfin : s.finished = false) (hdata : s.data = none) (hsub : s.processSubCommands = true)
    (hcmd : s.command = some cmd) (hc23 : cmd = 0x02 ∨ cmd = 0x03)
    (hops : (closeOperand s).operands = op0 :: rest) :
    step s 0x0a =
      (if isDecimalString (op0.map asciiByte) = true then
        .ok { s with command := none, operands := [], partialOctets := [],
                     dataBytes := declaredLength (decimalValue (op0.map asciiByte)),
                     data := some ⟨declaredLength (decimalValue (op0.map asciiByte)), [], false⟩,
                     tokens := s.tokens ++ [Token.command true cmd (op0 :: rest),
                       Token.data (declaredLength (decimalValue (op0.map asciiByte)))] }
      else
        .error (.invalidSizeOperand,
          { s with command := none, operands := [], partialOctets := [],
                   tokens := s.tokens ++ [Token.command true cmd (op0 :: rest)] })) := by
  rcases hc23 with rfl | rfl <;>
    simp [step, hfin, hdata, hcmd, finishCommand, hsub, hops]

/-- Witness for C7: sub-command `0x02` with size operand "3" opens a bounded
stream of declared length 3, announced by a Data token right after the
Command token. -/
theorem C7_witness :
    step ⟨some 0x02, [[0x33]], [], DataLen.fin 0, none, false, true, [], []⟩ 0x0a =
      .ok { command := none, operands := [], partialOctets := [], dataBytes := DataLen.fin 3,
            data := some ⟨DataLen.fin 3, [], false⟩, finished := false,
            processSubCommands := true,
            tokens := [Token.command true 0x02 [[0x33]], Token.data (DataLen.fin 3)],
            closedStreams := [] } := by
  have h := C7_size_operand_validation
    ⟨some 0x02, [[0x33]], [], DataLen.fin 0, none, false, true, [], []⟩
    0x02 [0x33] [] rfl rfl rfl rfl (Or.inl rfl) rfl
  exact h.trans (by decide)

/-- **C1 (amended).** For a declared payload length `L` that is positive and
not the sentinel, given as the decimal size operand of a sub-command
`0x02`/`0x03`: processing the terminating line feed, any `L` payload octets
`bs` and one further octet `c` pushes the Command token and exactly one Data
token of declared length `L`, delivers exactly the `L` octets `bs` — byte for
byte the octets sent — to the payload stream, and then reads `c` as the
completion octet, closing the stream (cleanly iff `c = 0`).  The declared
length `L = 0` is excluded: the source maps it (like the sentinel) to an
unbounded stream, see the counterexample. -/
theorem C1_bounded_length_roundtrip (s : TokState) (cmd L c : Nat) (ds bs : List Nat)
    (hfin : s.finished = false) (hdata : s.data = none) (hsub : s.processSubCommands = true)
    (hcmd : s.command = some cmd) (hc23 : cmd = 0x02 ∨ cmd = 0x03)
    (hops : s.operands = []) (hpart : s.partialOctets = ds)
    (hds : isDecimalString (ds.map asciiByte) = true)
    (hval : decimalValue (ds.map asciiByte) = L)
    (hpos : 0 < L) (hsent : L ≠ sentinelLength) (hlen : bs.length = L) :
    processBytes s (0x0a :: (bs ++ [c])) = .ok
      { s with command := none, operands := [], partialOctets := [],
               dataBytes := DataLen.fin 0, data := none,
               tokens := s.tokens ++ [Token.command true cmd [ds], Token.data (DataLen.fin L)],
               closedStreams := s.closedStreams ++ [⟨DataLen.fin L, bs, c == 0⟩] } := by
  have hdsne : ¬ds.isEmpty = true := by
    cases ds with
    | nil => simp [isDecimalString] at hds
    | cons x xs => simp
  have hstep : step s 0x0a = .ok
      { s with command := none, operands := [], partialOctets := [],
               dataBytes := DataLen.fin L, data := some ⟨DataLen.fin L, [], false⟩,
               tokens := s.tokens ++ [Token.command true cmd [ds],
                 Token.data (DataLen.fin L)] } := by
    rcases hc23 with rfl | rfl <;>
      simp [step, hfin, hdata, hcmd, finishCommand, closeOperand, hsub, hops, hpart, hdsne,
        hds, hval, declaredLength, hpos, hsent]
  rw [processBytes_cons_ok _ _ _ _ hstep]
  have hforward := processBytes_forward_bounded bs
    { s with command := none, operands := [], partialOctets := [],
             dataBytes := DataLen.fin L, data := some ⟨DataLen.fin L, [], false⟩,
             tokens := s.tokens ++ [Token.command true cmd [ds], Token.data (DataLen.fin L)] }
    ⟨DataLen.fin L, [], false⟩ [c] hfin rfl rfl (by rw [hlen])
    (by rintro rfl; rw [List.length_nil] at hlen; omega)
  rw [hforward]
  simp [processBytes, step, hfin, confirmData, hsub]

/-- Counterexample to C1 as stated (it includes `L = 0`): after declaring size
`0`, the claim predicts that zero payload octets are delivered and the next
octet is read as the completion octet, closing the stream.  Instead the
source maps `0` to an unbounded transfer: processing the octet `0x41` leaves
the stream open (`closedStreams` stays empty, no completion octet has been
read) with `0x41` delivered as payload. -/
theorem C1_counterexample :
    processBytes initState [0x02, 0x71, 0x0a, 0x02, 0x30, 0x0a, 0x41] = .ok
      { command := none, operands := [], partialOctets := [], dataBytes := DataLen.inf,
        data := some ⟨DataLen.inf, [0x41], false⟩, finished := false,
        processSubCommands := true,
        tokens := [Token.command false 0x02 [[0x71]], Token.command true 0x02 [[0x30]],
          Token.data DataLen.inf],
        closedStreams := [] } := by
  decide

/-- Witness for the amended C1: length "2", payload `[0xAA, 0xBB]`, clean
completion octet `0`. -/
theorem C1_witness :
    processBytes ⟨some 0x02, [], [0x32], DataLen.fin 0, none, false, true, [], []⟩
      (0x0a :: ([0xAA, 0xBB] ++ [0])) = .ok
      { command := none, operands := [], partialOctets := [], dataBytes := DataLen.fin 0,
        data := none, finished := false, processSubCommands := true,
        tokens := [Token.command true 0x02 [[0x32]], Token.data (DataLen.fin 2)],
        closedStreams := [⟨DataLen.fin 2, [0xAA, 0xBB], true⟩] } := by
  have h := C1_bounded_length_roundtrip
    ⟨some 0x02, [], [0x32], DataLen.fin 0, none, false, true, [], []⟩
    0x02 2 0 [0x32] [0xAA, 0xBB] rfl rfl rfl rfl (Or.inl rfl) rfl rfl
    (by decide) (by decide) (by decide) (by decide) rfl
  exact h.trans (by decide)

/-- **C2 (amended).** A declared size operand of `0` or of the sentinel
`125899906843000` yields an unbounded payload stream: every subsequent input
octet — the value `0` included — is forwarded to the stream as payload, the
stream is never closed because a byte count has been reached and no
completion octet is ever read for it; it is closed, cleanly, only when the
input stream of the connection ends. -/
theorem C2_unbounded_closes_at_end_of_input (s : TokState) (cmd : Nat) (ds bs : List Nat)
    (hfin : s.finished = false) (hdata : s.data = none) (hsub : s.processSubCommands = true)
    (hcmd : s.command = some cmd) (hc23 : cmd = 0x02 ∨ cmd = 0x03)
    (hops : s.operands = []) (hpart : s.partialOctets = ds)
    (hds : isDecimalString (ds.map asciiByte) = true)
    (hval : decimalValue (ds.map asciiByte) = 0 ∨
      decimalValue (ds.map asciiByte) = sentinelLength) :
    processBytes s (0x0a :: bs) = .ok
      { s with command := none, operands := [], partialOctets := [],
               dataBytes := DataLen.inf, data := some ⟨DataLen.inf, bs, false⟩,
               tokens := s.tokens ++ [Token.command true cmd [ds], Token.data DataLen.inf] } ∧
    finishInput
      { s with command := none, operands := [], partialOctets := [],
               dataBytes := DataLen.inf, data := some ⟨DataLen.inf, bs, false⟩,
               tokens := s.tokens ++ [Token.command true cmd [ds], Token.data DataLen.inf] } =
      .ok
      { s with command := none, operands := [], partialOctets := [],
               dataBytes := DataLen.inf, data := none,
               tokens := s.tokens ++ [Token.command true cmd [ds], Token.data DataLen.inf,
                 Token.eof],
               closedStreams := s.closedStreams ++ [⟨DataLen.inf, bs, true⟩] } := by
  have hdsne : ¬ds.isEmpty = true := by
    cases ds with
    | nil => simp [isDecimalString] at hds
    | cons x xs => simp
  have hdecl : declaredLength (decimalValue (ds.map asciiByte)) = DataLen.inf := by
    rcases hval with h | h <;> simp [declaredLength, h, sentinelLength]
  constructor
  · have hstep : step s 0x0a = .ok
        { s with command := none, operands := [], partialOctets := [],
                 dataBytes := DataLen.inf, data := some ⟨DataLen.inf, [], false⟩,
                 tokens := s.tokens ++ [Token.command true cmd [ds],
                   Token.data DataLen.inf] } := by
      rcases hc23 with rfl | rfl <;>
        simp [step, hfin, hdata, hcmd, finishCommand, closeOperand, hsub, hops, hpart, hdsne,
          hds, hdecl]
    rw [processBytes_cons_ok _ _ _ _ hstep]
    have hforward := processBytes_forward_unbounded bs
      { s with command := none, operands := [], partialOctets := [],
               dataBytes := DataLen.inf, data := some ⟨DataLen.inf, [], false⟩,
               tokens := s.tokens ++ [Token.command true cmd [ds], Token.data DataLen.inf] }
      ⟨DataLen.inf, [], false⟩ hfin rfl rfl rfl
    rw [hforward]
    simp
  · simp [finishInput, flush, endStream, TokState.expectConfirmationFromLpClient]

/-- Counterexample to C2 as stated ("closes only when an explicit completion
octet is read"): after declaring size `0`, the octets `0x41 0x00 0x42` are all
forwarded as payload — the `0x00` octet is not read as a completion octet and
does not close the stream — and at end of input the stream is closed cleanly
without any completion octet having been read, the End token being emitted. -/
theorem C2_counterexample :
    runTokenizer [0x02, 0x71, 0x0a, 0x02, 0x30, 0x0a, 0x41, 0x00, 0x42] = .ok
      { command := none, operands := [], partialOctets := [], dataBytes := DataLen.inf,
        data := none, finished := false, processSubCommands := true,
        tokens := [Token.command false 0x02 [[0x71]], Token.command true 0x02 [[0x30]],
          Token.data DataLen.inf, Token.eof],
        closedStreams := [⟨DataLen.inf, [0x41, 0x00, 0x42], true⟩] } := by
  decide

/-- Witness for the amended C2: size operand "0", three payload octets
including a zero octet, closed cleanly at end of input. -/
theorem C2_witness :
    processBytes ⟨some 0x02, [], [0x30], DataLen.fin 0, none, false, true, [], []⟩
      (0x0a :: [0x41, 0x00, 0x42]) = .ok
      { command := none, operands := [], partialOctets := [], dataBytes := DataLen.inf,
        data := some ⟨DataLen.inf, [0x41, 0x00, 0x42], false⟩, finished := false,
        processSubCommands := true,
        tokens := [Token.command true 0x02 [[0x30]], Token.data DataLen.inf],
        closedStreams := [] } ∧
    finishInput
      { command := none, operands := [], partialOctets := [], dataBytes := DataLen.inf,
        data := some ⟨DataLen.inf, [0x41, 0x00, 0x42], false⟩, finished := false,
        processSubCommands := true,
        tokens := [Token.command true 0x02 [[0x30]], Token.data DataLen.inf],
        closedStreams := [] } = .ok
      { command := none, operands := [], partialOctets := [], dataBytes := DataLen.inf,
        data := none, finished := false, processSubCommands := true,
        tokens := [Token.command true 0x02 [[0x30]], Token.data DataLen.inf, Token.eof],
        closedStreams := [⟨DataLen.inf, [0x41, 0x00, 0x42], true⟩] } := by
  have h := C2_unbounded_closes_at_end_of_input
    ⟨some 0x02, [], [0x30], DataLen.fin 0, none, false, true, [], []⟩
    0x02 [0x30] [0x41, 0x00, 0x42] rfl rfl rfl rfl (Or.inl rfl) rfl rfl
    (by decide) (Or.inl (by decide))
  exact ⟨h.1.trans (by decide), by simpa using h.2⟩

end LpDaemon
